import Mathlib

/-!
# agalang-core: the token dump driver script (`index.js`)

A shallow embedding of the script: it runs the compiler with `tokens`, decodes
the standard output as JSON and filters the decoded array; when anything in
that block throws, the handler reads `e.stderr`, looks for the styled
`error:` header on line 0 and prints the message with the two numbers found
on line 1.

JavaScript strings are modelled as `String` (the subprocess output is decoded
as UTF-8, so they are sequences of Unicode scalar values); the string methods
used by the script are defined on the character lists.
-/

set_option autoImplicit false

namespace AgalangCore

/-! ## JavaScript numbers -/

/-- A JavaScript number: `NaN`, the two infinities, negative zero, or a finite
double given by its exact rational value (`fin 0` is `+0`). -/
inductive JSNumber where
  | nan
  | posInf
  | negInf
  | negZero
  | fin (q : ℚ)
  deriving DecidableEq

namespace JSNumber

/-- The double nearest to a natural number (ties to even); integers below
`2 ^ 53` are represented exactly. -/
def ofNat (n : Nat) : JSNumber :=
  if n < 2 ^ 53 then fin n
  else
    let k := Nat.log2 n - 52
    let m := n / 2 ^ k
    let r := n % 2 ^ k
    let half := 2 ^ (k - 1)
    let m1 := if r > half ∨ (r = half ∧ m % 2 = 1) then m + 1 else m
    if m1 * 2 ^ k ≥ 2 ^ 1024 then posInf else fin ((m1 * 2 ^ k : Nat) : ℚ)

/-- The double nearest to the positive rational `a / b` (ties to even), with
gradual underflow and overflow to infinity. -/
def ofRatio (a b : Nat) : JSNumber :=
  let e0 : Int := (Nat.log2 a : Int) - (Nat.log2 b : Int)
  let ge : Bool := if 0 ≤ e0 then b * 2 ^ e0.toNat ≤ a else b ≤ a * 2 ^ (-e0).toNat
  let e : Int := if ge then e0 else e0 - 1
  let ulp : Int := max (e - 52) (-1074)
  let num : Nat := if 0 ≤ ulp then a else a * 2 ^ (-ulp).toNat
  let den : Nat := if 0 ≤ ulp then b * 2 ^ ulp.toNat else b
  let m := num / den
  let r := num % den
  let m1 := if 2 * r > den ∨ (2 * r = den ∧ m % 2 = 1) then m + 1 else m
  let v : ℚ := (m1 : ℚ) * (2 : ℚ) ^ ulp
  if v ≥ (2 : ℚ) ^ (1024 : Nat) then posInf else fin v

/-- The number for the decimal mantissa `m` scaled by `10 ^ e`. -/
def ofDecimal (m : Nat) (e : Int) : JSNumber :=
  if m = 0 then fin 0
  else if 0 ≤ e then ofNat (m * 10 ^ e.toNat)
  else ofRatio m (10 ^ (-e).toNat)

/-- Unary minus, as applied by a leading `-` of a numeric string. -/
def neg : JSNumber → JSNumber
  | nan => nan
  | posInf => negInf
  | negInf => posInf
  | negZero => fin 0
  | fin q => if q = 0 then negZero else fin (-q)

end JSNumber

/-! ## String methods -/

/-- The characters removed by `String.prototype.trim` and skipped around a
numeric string: ECMAScript `WhiteSpace` and `LineTerminator`. -/
def isWhiteSpace (c : Char) : Bool :=
  let n := c.toNat
  n = 0x09 || n = 0x0A || n = 0x0B || n = 0x0C || n = 0x0D || n = 0x20 ||
  n = 0xA0 || n = 0x1680 || (0x2000 ≤ n && n ≤ 0x200A) || n = 0x2028 ||
  n = 0x2029 || n = 0x202F || n = 0x205F || n = 0x3000 || n = 0xFEFF

/-- Splitting a character list at every occurrence of a separator character;
the empty list splits into one empty field. -/
def splitChars (sep : Char) : List Char → List (List Char)
  | [] => [[]]
  | c :: cs =>
    if c = sep then [] :: splitChars sep cs
    else
      match splitChars sep cs with
      | [] => [[c]]
      | f :: fs => (c :: f) :: fs

/-- Replacing the first occurrence of `pat` in a character list by `rep`. -/
def replaceChars (pat rep : List Char) : List Char → List Char
  | [] => if pat = [] then rep else []
  | c :: cs =>
    if pat.isPrefixOf (c :: cs) then rep ++ (c :: cs).drop pat.length
    else c :: replaceChars pat rep cs

/-- Dropping white space at both ends of a character list. -/
def trimChars (cs : List Char) : List Char :=
  ((cs.dropWhile isWhiteSpace).reverse.dropWhile isWhiteSpace).reverse

/-- The method `s.split(sep)` for a one-character separator. -/
def split (s : String) (sep : Char) : List String :=
  (splitChars sep s.data).map String.mk

/-- The method `s.startsWith(p)`. -/
def startsWith (s p : String) : Bool :=
  p.data.isPrefixOf s.data

/-- The method `s.replace(pat, rep)` for a string pattern and a replacement without `$`:
only the first occurrence is replaced. -/
def replace (s pat rep : String) : String :=
  String.mk (replaceChars pat.data rep.data s.data)

/-- The method `s.trim()`. -/
def trim (s : String) : String :=
  String.mk (trimChars s.data)

/-! ## The conversion `Number(...)` on strings -/

/-- Decimal digit test. -/
def isDecimalDigit (c : Char) : Bool :=
  48 ≤ c.toNat && c.toNat ≤ 57

/-- Value of a list of digits in the given base, most significant first. -/
def digitsValue (base : Nat) (digit : Char → Nat) (ds : List Char) : Nat :=
  ds.foldl (fun acc c => base * acc + digit c) 0

/-- Value of a decimal digit character. -/
def decimalDigit (c : Char) : Nat := c.toNat - 48

/-- Value of a list of decimal digits. -/
def decimalValue (ds : List Char) : Nat := digitsValue 10 decimalDigit ds

/-- Hexadecimal digit test. -/
def isHexDigit (c : Char) : Bool :=
  isDecimalDigit c || (97 ≤ c.toNat && c.toNat ≤ 102) || (65 ≤ c.toNat && c.toNat ≤ 70)

/-- Value of a hexadecimal digit character. -/
def hexDigit (c : Char) : Nat :=
  if isDecimalDigit c then c.toNat - 48
  else if 97 ≤ c.toNat then c.toNat - 87
  else c.toNat - 55

/-- The grammar `NonDecimalIntegerLiteral`: `0x`, `0o` or `0b` (either case)
followed by at least one digit of that base and nothing else. -/
def nonDecimalLiteral : List Char → Option Nat
  | '0' :: c :: ds =>
    if ds = [] then none
    else if c = 'x' ∨ c = 'X' then
      if ds.all isHexDigit then some (digitsValue 16 hexDigit ds) else none
    else if c = 'o' ∨ c = 'O' then
      if ds.all (fun d => 48 ≤ d.toNat && d.toNat ≤ 55) then
        some (digitsValue 8 decimalDigit ds) else none
    else if c = 'b' ∨ c = 'B' then
      if ds.all (fun d => d = '0' || d = '1') then
        some (digitsValue 2 decimalDigit ds) else none
    else none
  | _ => none

/-- The grammar `ExponentPart` after its `e`: an optionally signed, non-empty
run of decimal digits. -/
def exponentValue (cs : List Char) : Option Int :=
  let body : Bool × List Char :=
    match cs with
    | '+' :: ds => (false, ds)
    | '-' :: ds => (true, ds)
    | ds => (false, ds)
  if body.2 ≠ [] ∧ body.2.all isDecimalDigit = true then
    some (if body.1 then -(decimalValue body.2 : Int) else (decimalValue body.2 : Int))
  else none

/-- The grammar `StrUnsignedDecimalLiteral` without `Infinity`: digits with an
optional fraction and exponent; the result is a mantissa and a power of ten. -/
def unsignedDecimal (cs : List Char) : Option (Nat × Int) :=
  let ip := cs.takeWhile isDecimalDigit
  let r1 := cs.dropWhile isDecimalDigit
  let fp := match r1 with
    | '.' :: r => r.takeWhile isDecimalDigit
    | _ => []
  let r2 := match r1 with
    | '.' :: r => r.dropWhile isDecimalDigit
    | _ => r1
  if ip = [] ∧ fp = [] then none
  else
    match r2 with
    | [] => some (decimalValue (ip ++ fp), -(fp.length : Int))
    | c :: r =>
      if c = 'e' ∨ c = 'E' then
        match exponentValue r with
        | some x => some (decimalValue (ip ++ fp), x - (fp.length : Int))
        | none => none
      else none

/-- The abstract operation `StringToNumber`. -/
def StringToNumber (s : List Char) : JSNumber :=
  let t := trimChars s
  if t = [] then JSNumber.fin 0
  else
    match nonDecimalLiteral t with
    | some n => JSNumber.ofNat n
    | none =>
      let signed : Bool × List Char :=
        match t with
        | '+' :: r => (false, r)
        | '-' :: r => (true, r)
        | r => (false, r)
      let magnitude : JSNumber :=
        if signed.2 = ['I', 'n', 'f', 'i', 'n', 'i', 't', 'y'] then JSNumber.posInf
        else
          match unsignedDecimal signed.2 with
          | some (m, e) => JSNumber.ofDecimal m e
          | none => JSNumber.nan
      if signed.1 then magnitude.neg else magnitude

/-- The call `Number(v)` for `v` an element taken out of an array of strings by
destructuring: a string, or `undefined` (`none`) when the array is too
short. -/
def Number : Option String → JSNumber
  | none => JSNumber.nan
  | some s => StringToNumber s.data

/-! ## Decoded JSON values -/

/-- A JavaScript value as produced by `JSON.parse`, with `undefined` for the
result of reading a property that is not there. -/
inductive JSValue where
  | undefined
  | null
  | bool (b : Bool)
  | number (n : JSNumber)
  | string (s : String)
  | array (elems : List JSValue)
  | object (props : List (String × JSValue))

/-- What the `try` block can throw. -/
inductive Thrown where
  | execError (stderr : String)
  | syntaxError
  | typeError
  deriving DecidableEq

/-- The `stderr` property of a thrown value: only the error of a failed
`execSync` has one; on the built-in errors the property reads `undefined`
(`none`). -/
def Thrown.stderr : Thrown → Option String
  | .execError s => some s
  | .syntaxError => none
  | .typeError => none

/-- Reading `v.name` for a name that no built-in prototype defines
(`definition`, `location`, `start`, `line`, `column`): a `TypeError` on
`undefined` and `null`, the own property of an object, `undefined`
otherwise. -/
def getProp (v : JSValue) (name : String) : Except Thrown JSValue :=
  match v with
  | .undefined => .error .typeError
  | .null => .error .typeError
  | .object props =>
    match props.lookup name with
    | some x => .ok x
    | none => .ok .undefined
  | _ => .ok .undefined

/-- Equality of numbers under `===`. -/
def numberEq : JSNumber → JSNumber → Bool
  | .nan, _ => false
  | _, .nan => false
  | .negZero, .fin q => q = 0
  | .fin q, .negZero => q = 0
  | a, b => a = b

/-- The operator `===`; two arrays or objects decoded at different places of
a JSON text are never the same object. -/
def strictEq : JSValue → JSValue → Bool
  | .undefined, .undefined => true
  | .null, .null => true
  | .bool a, .bool b => a = b
  | .number a, .number b => numberEq a b
  | .string a, .string b => a = b
  | _, _ => false

/-- The abstract operation `ToBoolean`. -/
def toBoolean : JSValue → Bool
  | .undefined => false
  | .null => false
  | .bool b => b
  | .number n =>
    match n with
    | .nan => false
    | .negZero => false
    | .fin q => q ≠ 0
    | _ => true
  | .string s => s ≠ ""
  | .array _ => true
  | .object _ => true

/-- The method `xs.filter(cb)`: the callback runs on the elements in order,
an element is kept when the returned value is truthy, and a throwing callback
ends the loop. -/
def filter (cb : JSValue → Except Thrown JSValue) :
    List JSValue → Except Thrown (List JSValue)
  | [] => .ok []
  | x :: xs =>
    match cb x with
    | .error e => .error e
    | .ok keep =>
      match filter cb xs with
      | .error e => .error e
      | .ok rest => .ok (if toBoolean keep then x :: rest else rest)

/-! ## The script -/

/-- The callback handed to `filter` (lines 20 to 22): a block body made of one
expression statement. The comparison is evaluated, with `&&` skipping its
right operand when the left one is false, and the block then ends without a
`return`, so the call yields `undefined`. -/
def filterCallback (data : JSValue) : Except Thrown JSValue := do
  let definition ← getProp data "definition"
  let defLine ← getProp definition "line"
  let location ← getProp data "location"
  let start ← getProp location "start"
  let startLine ← getProp start "line"
  if strictEq defLine startLine then
    let definition2 ← getProp data "definition"
    let defColumn ← getProp definition2 "column"
    let location2 ← getProp data "location"
    let start2 ← getProp location2 "start"
    let startColumn ← getProp start2 "column"
    let _ := strictEq defColumn startColumn
    pure ()
  pure JSValue.undefined

/-- The token filter: `.filter(data => { ... })` on the decoded array. -/
def tokenFilter (tokens : List JSValue) : Except Thrown (List JSValue) :=
  filter filterCallback tokens

/-- How the call of `execSync` ended. `returned decoded`: the compiler exited
with status 0, and `decoded` is what `JSON.parse` makes of its standard
output (`none` when that text is not valid JSON). `failed stderr`: the
compiler exited with a non-zero status, and the thrown error carries its
standard error text. -/
inductive ExecOutcome where
  | returned (decoded : Option JSValue)
  | failed (stderr : String)

/-- The `try` block (lines 14 to 22); the filtered array is dropped. -/
def tryBlock : ExecOutcome → Except Thrown Unit
  | .failed stderr => .error (.execError stderr)
  | .returned none => .error .syntaxError
  | .returned (some (.array tokens)) =>
    match tokenFilter tokens with
    | .error e => .error e
    | .ok _ => .ok ()
  | .returned (some _) => .error .typeError

/-- The literal of lines 25 and 26: bold, bright red `error`, default colour,
a colon, reset. -/
def errorHeader : String := "\x1b[1m\x1b[91merror\x1b[39m:\x1b[0m"

/-- One call of `console.log(error, Number(line), Number(column))`. -/
abbrev Printed := String × JSNumber × JSNumber

/-- What a run leaves behind: the calls of `console.log`, and the error that
left the script uncaught, if any. -/
structure RunResult where
  printed : List Printed
  uncaught : Option Thrown
  deriving DecidableEq

/-- Line 26: the header is replaced by the empty string and the rest
trimmed. -/
def extractMessage (line0 : String) : String :=
  trim (replace line0 errorHeader "")

/-- Line 27: `const [column, line] = line1.split(':').reverse()`; a missing
element is `undefined` (`none`). -/
def extractLocation (line1 : String) : Option String × Option String :=
  let reversed := (split line1 ':').reverse
  (reversed[0]?, reversed[1]?)

/-- The `catch` handler (lines 24 to 29). Reading a property of `undefined`
(`e.stderr` of a built-in error, or `error_lines[1]` when there is no second
line) throws a `TypeError` out of the handler. -/
def catchHandler (e : Thrown) : RunResult :=
  match e.stderr with
  | none => ⟨[], some .typeError⟩
  | some stderr =>
    let error_lines := split stderr '\n'
    match error_lines[0]? with
    | none => ⟨[], some .typeError⟩
    | some line0 =>
      if startsWith line0 errorHeader then
        let error := extractMessage line0
        match error_lines[1]? with
        | none => ⟨[], some .typeError⟩
        | some line1 =>
          let (column, line) := extractLocation line1
          ⟨[(error, Number line, Number column)], none⟩
      else ⟨[], none⟩

/-- One run of the script. -/
def run (o : ExecOutcome) : RunResult :=
  match tryBlock o with
  | .ok _ => ⟨[], none⟩
  | .error e => catchHandler e

/-! ## Well-formed token records -/

/-- A source position. -/
structure Position where
  line : Nat
  column : Nat

/-- A source span. -/
structure Span where
  start : Position
  stop : Position

/-- A token record as the compiler reports it; `others` are the descriptive
properties the script does not read. -/
structure TokenRecord where
  definition : Position
  location : Span
  others : List (String × JSValue)

/-- The decoded form of a position. -/
def Position.toJS (p : Position) : JSValue :=
  .object [("line", .number (JSNumber.ofNat p.line)),
           ("column", .number (JSNumber.ofNat p.column))]

/-- The decoded form of a token record. -/
def TokenRecord.toJS (t : TokenRecord) : JSValue :=
  .object (("definition", t.definition.toJS) ::
           ("location", .object [("start", t.location.start.toJS),
                                 ("end", t.location.stop.toJS)]) :: t.others)

/-- The predicate the specification gives for the filter. -/
def TokenRecord.isDeclaration (t : TokenRecord) : Prop :=
  t.definition.line = t.location.start.line ∧
  t.definition.column = t.location.start.column

/-- A string of decimal digits. -/
def isDecimalInteger (s : String) : Prop :=
  s.data ≠ [] ∧ ∀ c ∈ s.data, isDecimalDigit c = true

/-! ## Notions used in the statements -/

/-- Characters that can begin a numeric string: white space, a digit, a sign,
a dot, or the `I` of `Infinity`. -/
def canStartNumber (c : Char) : Bool :=
  isWhiteSpace c || isDecimalDigit c || c = '+' || c = '-' || c = '.' || c = 'I'

/-- A destructured element that cannot convert to a number: `undefined`, or a
string whose first character cannot begin a numeric string. -/
def notNumeric : Option String → Bool
  | none => true
  | some s =>
    match s.data with
    | [] => false
    | c :: _ => !canStartNumber c

/-- A decoded value on which `definition`, `location` or `location.start`
reads `undefined`. -/
def lacksTokenFields (x : JSValue) : Prop :=
  getProp x "definition" = .ok .undefined ∨
  getProp x "location" = .ok .undefined ∨
  ∃ loc, getProp x "location" = .ok loc ∧ getProp loc "start" = .ok .undefined

/-- A token that sits on its own declaration: defined at 1:1, located at
1:1 to 1:4. -/
def declarationToken : TokenRecord :=
  ⟨⟨1, 1⟩, ⟨⟨1, 1⟩, ⟨1, 4⟩⟩, []⟩

/-! ## The token filter -/

theorem getProp_definition (t : TokenRecord) :
    getProp t.toJS "definition" = .ok t.definition.toJS := rfl

theorem getProp_location (t : TokenRecord) :
    getProp t.toJS "location" =
      .ok (.object [("start", t.location.start.toJS), ("end", t.location.stop.toJS)]) := rfl

theorem getProp_start (a b : JSValue) :
    getProp (.object [("start", a), ("end", b)]) "start" = .ok a := rfl

theorem getProp_line (p : Position) :
    getProp p.toJS "line" = .ok (.number (JSNumber.ofNat p.line)) := rfl

theorem getProp_column (p : Position) :
    getProp p.toJS "column" = .ok (.number (JSNumber.ofNat p.column)) := rfl

theorem filterCallback_toJS (t : TokenRecord) :
    filterCallback t.toJS = .ok .undefined := by
  simp only [filterCallback, getProp_definition, getProp_location, getProp_start,
    getProp_line, getProp_column, bind, Except.bind, pure, Except.pure]
  split <;> rfl

theorem filter_sublist (cb : JSValue → Except Thrown JSValue) :
    ∀ (xs kept : List JSValue), filter cb xs = .ok kept → kept.Sublist xs := by
  intro xs
  induction xs with
  | nil =>
    intro kept h
    simp [filter] at h
    subst h
    exact List.Sublist.slnil
  | cons x xs ih =>
    intro kept h
    unfold filter at h
    cases hx : cb x with
    | error e => simp [hx] at h
    | ok keep =>
      cases hr : filter cb xs with
      | error e => simp [hx, hr] at h
      | ok rest =>
        simp only [hx, hr] at h
        have hs := ih rest hr
        by_cases hk : toBoolean keep = true
        · simp [hk] at h
          subst h
          exact hs.cons₂ x
        · simp [hk] at h
          subst h
          exact hs.cons x

theorem filter_undefined (cb : JSValue → Except Thrown JSValue) :
    ∀ xs : List JSValue, (∀ x ∈ xs, cb x = .ok .undefined) → filter cb xs = .ok [] := by
  intro xs
  induction xs with
  | nil => intro _; rfl
  | cons x xs ih =>
    intro h
    have hx := h x (List.mem_cons_self x xs)
    have hr := ih (fun y hy => h y (List.mem_cons_of_mem x hy))
    simp [filter, hx, hr, toBoolean]

theorem tokenFilter_wellFormed (S : List TokenRecord) :
    tokenFilter (S.map TokenRecord.toJS) = .ok [] := by
  apply filter_undefined
  intro x hx
  obtain ⟨t, _, rfl⟩ := List.mem_map.mp hx
  exact filterCallback_toJS t

/-! ## Numeric strings -/

theorem not_whiteSpace_of_digit {c : Char} (h : isDecimalDigit c = true) :
    isWhiteSpace c = false := by
  simp only [isDecimalDigit, Bool.and_eq_true, decide_eq_true_eq] at h
  simp only [isWhiteSpace, Bool.or_eq_false_iff, Bool.and_eq_false_iff, decide_eq_false_iff_not]
  omega

theorem dropWhile_of_head {p : Char → Bool} :
    ∀ cs : List Char, (∀ c, cs.head? = some c → p c = false) → cs.dropWhile p = cs := by
  intro cs h
  cases cs with
  | nil => rfl
  | cons c cs => simp [List.dropWhile, h c rfl]

theorem trimChars_eq_self (cs : List Char) (h : ∀ c ∈ cs, isWhiteSpace c = false) :
    trimChars cs = cs := by
  unfold trimChars
  rw [dropWhile_of_head cs, dropWhile_of_head cs.reverse, List.reverse_reverse]
  · intro c hc
    exact h c (List.mem_reverse.mp (List.mem_of_mem_head? hc))
  · intro c hc
    exact h c (List.mem_of_mem_head? hc)

theorem nonDecimalLiteral_digits (ds : List Char) (h : ∀ c ∈ ds, isDecimalDigit c = true) :
    nonDecimalLiteral ds = none := by
  unfold nonDecimalLiteral
  split
  · rename_i c rest
    have hc : isDecimalDigit c = true := h c (by simp)
    simp only [isDecimalDigit, Bool.and_eq_true, decide_eq_true_eq] at hc
    have h1 : c ≠ 'x' := by rintro rfl; revert hc; decide
    have h2 : c ≠ 'X' := by rintro rfl; revert hc; decide
    have h3 : c ≠ 'o' := by rintro rfl; revert hc; decide
    have h4 : c ≠ 'O' := by rintro rfl; revert hc; decide
    have h5 : c ≠ 'b' := by rintro rfl; revert hc; decide
    have h6 : c ≠ 'B' := by rintro rfl; revert hc; decide
    simp [h1, h2, h3, h4, h5, h6]
  · rfl

theorem unsignedDecimal_digits (ds : List Char) (hne : ds ≠ [])
    (h : ∀ c ∈ ds, isDecimalDigit c = true) :
    unsignedDecimal ds = some (decimalValue ds, 0) := by
  have ht : ds.takeWhile isDecimalDigit = ds := List.takeWhile_eq_self_iff.mpr h
  have hd : ds.dropWhile isDecimalDigit = [] := List.dropWhile_eq_nil_iff.mpr h
  simp [unsignedDecimal, ht, hd, hne]

theorem ofDecimal_zero_exp (m : Nat) : JSNumber.ofDecimal m 0 = JSNumber.ofNat m := by
  unfold JSNumber.ofDecimal
  by_cases hm : m = 0
  · subst hm
    simp [JSNumber.ofNat]
  · simp [hm]

theorem StringToNumber_digits (ds : List Char) (hne : ds ≠ [])
    (h : ∀ c ∈ ds, isDecimalDigit c = true) :
    StringToNumber ds = JSNumber.ofNat (decimalValue ds) := by
  have htrim : trimChars ds = ds :=
    trimChars_eq_self ds (fun c hc => not_whiteSpace_of_digit (h c hc))
  obtain ⟨d, rest, rfl⟩ := List.exists_cons_of_ne_nil hne
  have hd : isDecimalDigit d = true := h d (by simp)
  simp only [isDecimalDigit, Bool.and_eq_true, decide_eq_true_eq] at hd
  have h1 : d ≠ '+' := by rintro rfl; revert hd; decide
  have h2 : d ≠ '-' := by rintro rfl; revert hd; decide
  have h3 : d ≠ 'I' := by rintro rfl; revert hd; decide
  unfold StringToNumber
  simp only [htrim, nonDecimalLiteral_digits _ h]
  simp [h1, h2, h3, unsignedDecimal_digits _ hne h, ofDecimal_zero_exp]

/-! ## Splitting, replacing, trimming -/

theorem splitChars_ne_nil (sep : Char) (cs : List Char) : splitChars sep cs ≠ [] := by
  cases cs with
  | nil => simp [splitChars]
  | cons c cs =>
    unfold splitChars
    split
    · simp
    · split <;> simp

theorem splitChars_of_not_mem (sep : Char) :
    ∀ cs : List Char, sep ∉ cs → splitChars sep cs = [cs] := by
  intro cs
  induction cs with
  | nil => intro _; rfl
  | cons c cs ih =>
    intro h
    have hc : c ≠ sep := fun e => h (by simp [e])
    have hr := ih (fun hm => h (List.mem_cons_of_mem c hm))
    simp [splitChars, hc, hr]

theorem splitChars_append_sep (sep : Char) (b : List Char) :
    ∀ a : List Char, sep ∉ a → splitChars sep (a ++ sep :: b) = a :: splitChars sep b := by
  intro a
  induction a with
  | nil => intro _; simp [splitChars]
  | cons c a ih =>
    intro h
    have hc : c ≠ sep := fun e => h (by simp [e])
    have hr := ih (fun hm => h (List.mem_cons_of_mem c hm))
    simp [splitChars, hc, hr]

theorem replaceChars_header (pat rest : List Char) :
    replaceChars pat [] (pat ++ rest) = rest := by
  cases hl : pat ++ rest with
  | nil =>
    have hp : pat = [] := (List.append_eq_nil.mp hl).1
    have hr : rest = [] := (List.append_eq_nil.mp hl).2
    simp [replaceChars, hp, hr]
  | cons c cs =>
    unfold replaceChars
    rw [← hl]
    simp

theorem dropWhile_append_singleton (p : Char → Bool) (c : Char) (hc : p c = false) :
    ∀ l : List Char, ∃ k, (l ++ [c]).dropWhile p = k ++ [c] := by
  intro l
  induction l with
  | nil => exact ⟨[], by simp [List.dropWhile, hc]⟩
  | cons a l ih =>
    by_cases ha : p a = true
    · obtain ⟨k, hk⟩ := ih
      exact ⟨k, by simp [List.dropWhile, ha, hk]⟩
    · exact ⟨a :: l, by simp [List.dropWhile, ha]⟩

theorem trimChars_cons (c : Char) (rest : List Char) (hc : isWhiteSpace c = false) :
    ∃ k, trimChars (c :: rest) = c :: k := by
  obtain ⟨k, hk⟩ := dropWhile_append_singleton isWhiteSpace c hc rest.reverse
  refine ⟨k.reverse, ?_⟩
  simp [trimChars, List.dropWhile, hc, hk]

theorem StringToNumber_nan (c : Char) (rest : List Char) (hc : canStartNumber c = false) :
    StringToNumber (c :: rest) = JSNumber.nan := by
  simp only [canStartNumber, Bool.or_eq_false_iff, decide_eq_false_iff_not] at hc
  obtain ⟨⟨⟨⟨⟨hws, hd⟩, h1⟩, h2⟩, h3⟩, h4⟩ := hc
  obtain ⟨k, hk⟩ := trimChars_cons c rest hws
  have h0 : c ≠ '0' := by rintro rfl; revert hd; decide
  have hnd : nonDecimalLiteral (c :: k) = none := by
    unfold nonDecimalLiteral
    split
    · rename_i heq
      exact absurd (List.cons.inj heq).1 h0
    · rfl
  have hud : unsignedDecimal (c :: k) = none := by
    simp [unsignedDecimal, List.takeWhile, List.dropWhile, hd, h3]
  unfold StringToNumber
  simp only [hk, hnd]
  simp [h1, h2, h4, hud]

theorem head?_dropWhile_false (p : Char → Bool) :
    ∀ (l : List Char) (c : Char), (l.dropWhile p).head? = some c → p c = false := by
  intro l
  induction l with
  | nil => intro c h; simp at h
  | cons a l ih =>
    intro c h
    by_cases ha : p a = true
    · simp [List.dropWhile, ha] at h
      exact ih c h
    · simp [List.dropWhile, ha] at h
      subst h
      simpa using ha

theorem trimChars_spec (cs : List Char) :
    ∃ pre post, cs = pre ++ trimChars cs ++ post ∧
      (∀ c ∈ pre, isWhiteSpace c = true) ∧ (∀ c ∈ post, isWhiteSpace c = true) ∧
      (∀ c, (trimChars cs).head? = some c → isWhiteSpace c = false) ∧
      (∀ c, (trimChars cs).getLast? = some c → isWhiteSpace c = false) := by
  refine ⟨cs.takeWhile isWhiteSpace,
    ((cs.dropWhile isWhiteSpace).reverse.takeWhile isWhiteSpace).reverse, ?_, ?_, ?_, ?_, ?_⟩
  · have h1 := List.takeWhile_append_dropWhile isWhiteSpace cs
    have h2 := List.takeWhile_append_dropWhile isWhiteSpace (cs.dropWhile isWhiteSpace).reverse
    have h3 := congrArg List.reverse h2
    rw [List.reverse_append, List.reverse_reverse] at h3
    unfold trimChars
    rw [List.append_assoc, h3, h1]
  · intro c hc
    exact List.mem_takeWhile_imp hc
  · intro c hc
    exact List.mem_takeWhile_imp (List.mem_reverse.mp hc)
  · intro c hc
    unfold trimChars at hc
    rw [List.head?_reverse] at hc
    -- the last character of the kept part is the last of the reversed input
    have h2 := List.takeWhile_append_dropWhile isWhiteSpace (cs.dropWhile isWhiteSpace).reverse
    have hne : (cs.dropWhile isWhiteSpace).reverse.dropWhile isWhiteSpace ≠ [] := by
      intro h; simp [h] at hc
    have h3 : (cs.dropWhile isWhiteSpace).reverse.getLast? = some c := by
      rw [← h2, List.getLast?_append_of_ne_nil _ hne]
      exact hc
    rw [List.getLast?_reverse] at h3
    exact head?_dropWhile_false isWhiteSpace cs c h3
  · intro c hc
    unfold trimChars at hc
    rw [List.getLast?_reverse] at hc
    exact head?_dropWhile_false isWhiteSpace _ c hc

theorem getProp_cases (v : JSValue) (name : String) :
    getProp v name = .error .typeError ∨ ∃ x, getProp v name = .ok x := by
  unfold getProp
  cases v with
  | undefined => exact Or.inl rfl
  | null => exact Or.inl rfl
  | object props =>
    cases h : props.lookup name with
    | none => exact Or.inr ⟨.undefined, by simp [h]⟩
    | some x => exact Or.inr ⟨x, by simp [h]⟩
  | bool b => exact Or.inr ⟨_, rfl⟩
  | number n => exact Or.inr ⟨_, rfl⟩
  | string s => exact Or.inr ⟨_, rfl⟩
  | array xs => exact Or.inr ⟨_, rfl⟩

theorem filterCallback_cases (x : JSValue) :
    filterCallback x = .error .typeError ∨ filterCallback x = .ok .undefined := by
  unfold filterCallback
  simp only [bind, Except.bind, pure, Except.pure]
  rcases getProp_cases x "definition" with h1 | ⟨d, h1⟩ <;> simp only [h1]
  · exact Or.inl trivial
  rcases getProp_cases d "line" with h2 | ⟨dl, h2⟩ <;> simp only [h2]
  · exact Or.inl trivial
  rcases getProp_cases x "location" with h3 | ⟨loc, h3⟩ <;> simp only [h3]
  · exact Or.inl trivial
  rcases getProp_cases loc "start" with h4 | ⟨st, h4⟩ <;> simp only [h4]
  · exact Or.inl trivial
  rcases getProp_cases st "line" with h5 | ⟨sl, h5⟩ <;> simp only [h5]
  · exact Or.inl trivial
  rcases getProp_cases d "column" with h6 | ⟨dc, h6⟩ <;>
    rcases getProp_cases st "column" with h7 | ⟨sc, h7⟩ <;>
    by_cases hq : strictEq dl sl = true <;> simp [h6, h7, hq]

theorem filterCallback_lacking (x : JSValue) (h : lacksTokenFields x) :
    filterCallback x = .error .typeError := by
  have hu : ∀ n, getProp .undefined n = .error .typeError := fun _ => rfl
  unfold filterCallback
  simp only [bind, Except.bind, pure, Except.pure]
  rcases h with h | h | ⟨loc, h, hs⟩
  · simp only [h, hu]
  · rcases getProp_cases x "definition" with h1 | ⟨d, h1⟩ <;> simp only [h1]
    rcases getProp_cases d "line" with h2 | ⟨dl, h2⟩ <;> simp only [h2, h, hu]
  · rcases getProp_cases x "definition" with h1 | ⟨d, h1⟩ <;> simp only [h1]
    rcases getProp_cases d "line" with h2 | ⟨dl, h2⟩ <;> simp only [h2, h, hs, hu]

theorem filter_throws (cb : JSValue → Except Thrown JSValue)
    (hcb : ∀ x, cb x = .error .typeError ∨ cb x = .ok .undefined) :
    ∀ xs : List JSValue, (∃ x ∈ xs, cb x = .error .typeError) →
      filter cb xs = .error .typeError := by
  intro xs
  induction xs with
  | nil => rintro ⟨x, hx, _⟩; simp at hx
  | cons a xs ih =>
    rintro ⟨x, hx, hxe⟩
    unfold filter
    rcases hcb a with ha | ha
    · simp [ha]
    · rcases List.mem_cons.mp hx with rfl | hx2
      · rw [ha] at hxe; cases hxe
      · simp [ha, ih ⟨x, hx2, hxe⟩]

/-! ## The handler -/

theorem run_failed (stderr : String) :
    run (.failed stderr) = catchHandler (.execError stderr) := rfl

theorem run_recognized (stderr line0 line1 : String) (more : List String)
    (hs : split stderr '\n' = line0 :: line1 :: more)
    (h0 : startsWith line0 errorHeader = true) :
    run (.failed stderr) =
      ⟨[(extractMessage line0, Number (extractLocation line1).2,
          Number (extractLocation line1).1)], none⟩ := by
  simp [run_failed, catchHandler, Thrown.stderr, hs, h0]

theorem run_unrecognized (stderr line0 : String) (more : List String)
    (hs : split stderr '\n' = line0 :: more)
    (h0 : startsWith line0 errorHeader = false) :
    run (.failed stderr) = ⟨[], none⟩ := by
  simp [run_failed, catchHandler, Thrown.stderr, hs, h0]

theorem run_no_location (stderr line0 : String)
    (hs : split stderr '\n' = [line0])
    (h0 : startsWith line0 errorHeader = true) :
    run (.failed stderr) = ⟨[], some .typeError⟩ := by
  simp [run_failed, catchHandler, Thrown.stderr, hs, h0]

theorem ofNat_exact (n : Nat) (h : n < 2 ^ 53) : JSNumber.ofNat n = .fin n := by
  unfold JSNumber.ofNat
  rw [if_pos h]

theorem Number_digits (s : String) (h : isDecimalInteger s) :
    Number (some s) = JSNumber.ofNat (decimalValue s.data) :=
  StringToNumber_digits s.data h.1 h.2

theorem colon_not_mem_digits (s : String) (h : isDecimalInteger s) : ':' ∉ s.data := by
  intro hm
  have := h.2 _ hm
  revert this
  decide

theorem split_pair (c l : String) (hc : ':' ∉ c.data) (hl : ':' ∉ l.data) :
    split (c ++ ":" ++ l) ':' = [c, l] := by
  have hd : (c ++ ":" ++ l).data = c.data ++ ':' :: l.data := by
    simp [String.data_append]
  simp [split, hd, splitChars_append_sep _ _ _ hc, splitChars_of_not_mem _ _ hl]

theorem extractMessage_header (rest : String) :
    extractMessage (errorHeader ++ rest) = trim rest := by
  simp [extractMessage, replace, String.data_append, replaceChars_header]

theorem Number_notNumeric (f : Option String) (h : notNumeric f = true) :
    Number f = JSNumber.nan := by
  cases f with
  | none => rfl
  | some s =>
    unfold notNumeric at h
    cases hd : s.data with
    | nil => simp [hd] at h
    | cons c rest =>
      simp only [hd, Bool.not_eq_true'] at h
      simp only [Number, hd]
      exact StringToNumber_nan c rest h

theorem extractLocation_no_colon (line1 : String) (h : ':' ∉ line1.data) :
    extractLocation line1 = (some line1, none) := by
  simp [extractLocation, split, splitChars_of_not_mem _ _ h]

/-! ## The claims -/

/-- C1: the filter is meant to keep a token exactly when its definition
position equals the start of its location. The callback evaluates that
comparison without returning it: the token `declarationToken` satisfies the
predicate and is the only element of the input, and the filter returns the
empty array. -/
theorem tokenFilter_drops_declaration :
    declarationToken.isDeclaration ∧ tokenFilter [declarationToken.toJS] = .ok [] :=
  ⟨⟨rfl, rfl⟩, tokenFilter_wellFormed [declarationToken]⟩

/-- C2, as stated, fails: with line 1 equal to `5:12` the column substring is
`12` and the line substring is `5`, and the run prints
`("disallowed token", 5, 12)`, not `("disallowed token", 12, 5)`. -/
theorem reversed_fields_counterexample :
    extractLocation "5:12" = (some "12", some "5") ∧
    run (.failed (errorHeader ++ "disallowed token\n5:12\n...")) =
      ⟨[("disallowed token", .fin 5, .fin 12)], none⟩ ∧
    run (.failed (errorHeader ++ "disallowed token\n5:12\n...")) ≠
      ⟨[("disallowed token", .fin 12, .fin 5)], none⟩ := by
  decide

/-- C2, amended: when line 0 begins with the header and line 1 is `c:l` with
`c` and `l` strings of decimal digits, the column substring is `l`, the line
substring is `c`, and the run prints the message, then `c`, then `l`, both as
JavaScript numbers. -/
theorem location_fields_written_order (stderr line0 line1 c l : String)
    (more : List String)
    (hs : split stderr '\n' = line0 :: line1 :: more)
    (h0 : startsWith line0 errorHeader = true)
    (h1 : line1 = c ++ ":" ++ l)
    (hc : isDecimalInteger c) (hl : isDecimalInteger l) :
    extractLocation line1 = (some l, some c) ∧
    run (.failed stderr) =
      ⟨[(extractMessage line0, JSNumber.ofNat (decimalValue c.data),
          JSNumber.ofNat (decimalValue l.data))], none⟩ := by
  have hloc : extractLocation line1 = (some l, some c) := by
    subst h1
    simp [extractLocation,
      split_pair c l (colon_not_mem_digits c hc) (colon_not_mem_digits l hl)]
  refine ⟨hloc, ?_⟩
  rw [run_recognized stderr line0 line1 more hs h0, hloc, Number_digits c hc,
    Number_digits l hl]

/-- Witness of `location_fields_written_order` on the text of the
specification's end-to-end scenario. -/
theorem location_fields_written_order_witness :
    extractLocation "5:12" = (some "12", some "5") ∧
    run (.failed (errorHeader ++ "disallowed token\n5:12\n...")) =
      ⟨[(extractMessage (errorHeader ++ "disallowed token"),
          JSNumber.ofNat (decimalValue "5".data),
          JSNumber.ofNat (decimalValue "12".data))], none⟩ :=
  location_fields_written_order (errorHeader ++ "disallowed token\n5:12\n...")
    (errorHeader ++ "disallowed token") "5:12" "5" "12" ["..."]
    (by decide) (by decide) (by decide) ⟨by decide, by decide⟩ ⟨by decide, by decide⟩

/-- C3: when line 0 begins with the header and line 1 splits on `:` into at
least two fields of which the last two are strings of decimal digits, the run
prints the message, then the value of the second-to-last field, then the
value of the last field; the earlier fields `pre` play no part. The values
are printed as JavaScript numbers, which are the values themselves below
`2 ^ 53`. -/
theorem last_two_fields_printed (stderr line0 line1 a b : String)
    (pre more : List String)
    (hs : split stderr '\n' = line0 :: line1 :: more)
    (h0 : startsWith line0 errorHeader = true)
    (hf : split line1 ':' = pre ++ [a, b])
    (ha : isDecimalInteger a) (hb : isDecimalInteger b) :
    run (.failed stderr) =
      ⟨[(extractMessage line0, JSNumber.ofNat (decimalValue a.data),
          JSNumber.ofNat (decimalValue b.data))], none⟩ ∧
    (∀ n : Nat, n < 2 ^ 53 → JSNumber.ofNat n = .fin n) := by
  have hloc : extractLocation line1 = (some b, some a) := by
    simp [extractLocation, hf]
  refine ⟨?_, ofNat_exact⟩
  rw [run_recognized stderr line0 line1 more hs h0, hloc, Number_digits a ha,
    Number_digits b hb]

/-- Witness of `last_two_fields_printed`: a location line with a file name
before the two numbers. -/
theorem last_two_fields_printed_witness :
    run (.failed (errorHeader ++ " unexpected token\na.aga:3:7\n")) =
      ⟨[("unexpected token", .fin 3, .fin 7)], none⟩ :=
  (last_two_fields_printed (errorHeader ++ " unexpected token\na.aga:3:7\n")
    (errorHeader ++ " unexpected token") "a.aga:3:7" "3" "7" ["a.aga"] [""]
    (by decide) (by decide) (by decide) ⟨by decide, by decide⟩
    ⟨by decide, by decide⟩).1.trans (by decide)

/-- C4: when line 0 is the header followed by `rest`, the message is `rest`
trimmed: `rest` is the message between two runs of white space, the message
neither begins nor ends with white space, and a run that prints, prints this
message. -/
theorem message_is_trimmed_rest (stderr line0 rest : String) (more : List String)
    (hs : split stderr '\n' = line0 :: more)
    (h0 : line0 = errorHeader ++ rest) :
    extractMessage line0 = trim rest ∧
    (∃ pre post, rest.data = pre ++ (trim rest).data ++ post ∧
      (∀ c ∈ pre, isWhiteSpace c = true) ∧ (∀ c ∈ post, isWhiteSpace c = true) ∧
      (∀ c, (trim rest).data.head? = some c → isWhiteSpace c = false) ∧
      (∀ c, (trim rest).data.getLast? = some c → isWhiteSpace c = false)) ∧
    (∀ p ∈ (run (.failed stderr)).printed, p.1 = trim rest) := by
  subst h0
  refine ⟨extractMessage_header rest, trimChars_spec rest.data, ?_⟩
  have hstart : startsWith (errorHeader ++ rest) errorHeader = true := by
    simp [startsWith, String.data_append]
  cases more with
  | nil =>
    rw [run_no_location stderr _ hs hstart]
    intro p hp
    simp at hp
  | cons line1 tail =>
    rw [run_recognized stderr _ line1 tail hs hstart]
    intro p hp
    simp only [List.mem_singleton] at hp
    subst hp
    exact extractMessage_header rest

/-- Witness of `message_is_trimmed_rest`: the header followed by `foo bar`
gives the message `foo bar`. -/
theorem message_is_trimmed_rest_witness :
    extractMessage (errorHeader ++ " foo bar ") = "foo bar" ∧
    run (.failed (errorHeader ++ " foo bar \n1:2")) =
      ⟨[("foo bar", .fin 1, .fin 2)], none⟩ :=
  ⟨(message_is_trimmed_rest (errorHeader ++ " foo bar \n1:2")
      (errorHeader ++ " foo bar ") " foo bar " ["1:2"]
      (by decide) (by decide)).1.trans (by decide), by decide⟩

/-- C5: when line 0 does not begin with the header, the run prints nothing
and raises nothing, whatever the later lines `more` are, and also when there
are none. -/
theorem unrecognized_header_prints_nothing (stderr line0 : String)
    (more : List String)
    (hs : split stderr '\n' = line0 :: more)
    (h0 : startsWith line0 errorHeader = false) :
    run (.failed stderr) = ⟨[], none⟩ :=
  run_unrecognized stderr line0 more hs h0

/-- Witness of `unrecognized_header_prints_nothing`: the one-line text
`warning: x`. -/
theorem unrecognized_header_prints_nothing_witness :
    split "warning: x" '\n' = ["warning: x"] ∧
    startsWith "warning: x" errorHeader = false ∧
    run (.failed "warning: x") = ⟨[], none⟩ :=
  ⟨by decide, by decide,
    unrecognized_header_prints_nothing "warning: x" "warning: x" []
      (by decide) (by decide)⟩

/-- C6, as stated, fails: with a recognized line 0 and line 1 equal to
`notanumber` nothing fails, and a triple is printed, with `NaN` for both
numbers. -/
theorem malformed_fields_counterexample :
    run (.failed (errorHeader ++ " bad thing\nnotanumber")) =
      ⟨[("bad thing", .nan, .nan)], none⟩ ∧
    (run (.failed (errorHeader ++ " bad thing\nnotanumber"))).uncaught = none ∧
    (run (.failed (errorHeader ++ " bad thing\nnotanumber"))).printed ≠ [] := by
  decide

/-- C6, amended: when line 0 begins with the header and line 1 exists, nothing
fails: the run prints exactly one triple, the message with `Number` of the
line substring and `Number` of the column substring. A substring that is
missing, or that begins with a character no numeric string begins with, is
printed as `NaN`; a line 1 without a colon is the column substring, and the
line substring is then missing. -/
theorem malformed_fields_print_nan (stderr line0 line1 : String)
    (more : List String)
    (hs : split stderr '\n' = line0 :: line1 :: more)
    (h0 : startsWith line0 errorHeader = true) :
    run (.failed stderr) =
      ⟨[(extractMessage line0, Number (extractLocation line1).2,
          Number (extractLocation line1).1)], none⟩ ∧
    (notNumeric (extractLocation line1).2 = true →
      Number (extractLocation line1).2 = .nan) ∧
    (notNumeric (extractLocation line1).1 = true →
      Number (extractLocation line1).1 = .nan) ∧
    (':' ∉ line1.data → extractLocation line1 = (some line1, none)) :=
  ⟨run_recognized stderr line0 line1 more hs h0, Number_notNumeric _,
    Number_notNumeric _, extractLocation_no_colon line1⟩

/-- Witness of `malformed_fields_print_nan`: a location line without a colon
and a two-field one whose fields are words. -/
theorem malformed_fields_print_nan_witness :
    split (errorHeader ++ "oops\nline:column") '\n' =
      [errorHeader ++ "oops", "line:column"] ∧
    startsWith (errorHeader ++ "oops") errorHeader = true ∧
    run (.failed (errorHeader ++ "oops\nline:column")) =
      ⟨[("oops", .nan, .nan)], none⟩ :=
  ⟨by decide, by decide,
    (malformed_fields_print_nan (errorHeader ++ "oops\nline:column")
      (errorHeader ++ "oops") "line:column" [] (by decide) (by decide)).1.trans
      (by decide)⟩

/-- C7: a text without a newline is its own line 0; when it begins with the
header, reading line 1 throws a `TypeError` out of the handler, and nothing
is printed. -/
theorem missing_location_line_throws (stderr : String)
    (hn : '\n' ∉ stderr.data)
    (h0 : startsWith stderr errorHeader = true) :
    split stderr '\n' = [stderr] ∧
    run (.failed stderr) = ⟨[], some .typeError⟩ := by
  have hsplit : split stderr '\n' = [stderr] := by
    simp [split, splitChars_of_not_mem _ _ hn]
  exact ⟨hsplit, run_no_location stderr stderr hsplit h0⟩

/-- Witness of `missing_location_line_throws`: the header followed by a
message and nothing else. -/
theorem missing_location_line_throws_witness :
    '\n' ∉ (errorHeader ++ "disallowed token").data ∧
    startsWith (errorHeader ++ "disallowed token") errorHeader = true ∧
    run (.failed (errorHeader ++ "disallowed token")) = ⟨[], some .typeError⟩ :=
  ⟨by decide, by decide,
    (missing_location_line_throws (errorHeader ++ "disallowed token")
      (by decide) (by decide)).2⟩

/-- C8, as stated, fails: the standard error text made of the header alone
comes from a failed invocation, and the run ends with a `TypeError` that
nothing catches. -/
theorem propagation_counterexample :
    (run (.failed errorHeader)).uncaught = some .typeError ∧
    (run (.failed errorHeader)).uncaught ≠ none := by
  decide

/-- C8, amended: when line 0 of the standard error text does not begin with
the header, or the text has a line 1, no error leaves the run, and the run
prints either nothing or exactly one triple. -/
theorem guarded_run_has_no_uncaught (stderr line0 : String) (more : List String)
    (hs : split stderr '\n' = line0 :: more)
    (h : startsWith line0 errorHeader = false ∨ more ≠ []) :
    (run (.failed stderr)).uncaught = none ∧
    ((run (.failed stderr)).printed = [] ∨
      ∃ t, (run (.failed stderr)).printed = [t]) := by
  cases h0 : startsWith line0 errorHeader with
  | false =>
    rw [run_unrecognized stderr line0 more hs h0]
    exact ⟨rfl, Or.inl rfl⟩
  | true =>
    cases more with
    | nil =>
      rcases h with h | h
      · rw [h0] at h; cases h
      · exact absurd rfl h
    | cons line1 tail =>
      rw [run_recognized stderr line0 line1 tail hs h0]
      exact ⟨rfl, Or.inr ⟨_, rfl⟩⟩

/-- Witness of `guarded_run_has_no_uncaught`: a recognized line 0 followed by
an empty line 1. -/
theorem guarded_run_has_no_uncaught_witness :
    split (errorHeader ++ "x\n") '\n' = [errorHeader ++ "x", ""] ∧
    (run (.failed (errorHeader ++ "x\n"))).uncaught = none ∧
    ((run (.failed (errorHeader ++ "x\n"))).printed = [] ∨
      ∃ t, (run (.failed (errorHeader ++ "x\n"))).printed = [t]) :=
  ⟨by decide,
    guarded_run_has_no_uncaught (errorHeader ++ "x\n") (errorHeader ++ "x") [""]
      (by decide) (Or.inr (by decide))⟩

/-- C9: on well-formed token records the filter returns, what it returns is a
subsequence of its input, and the filter of the empty array is the empty
array. -/
theorem tokenFilter_subsequence (S : List TokenRecord) :
    (∃ kept, tokenFilter (S.map TokenRecord.toJS) = .ok kept ∧
      kept.Sublist (S.map TokenRecord.toJS)) ∧
    tokenFilter [] = .ok [] :=
  ⟨⟨[], tokenFilter_wellFormed S,
    filter_sublist filterCallback _ _ (tokenFilter_wellFormed S)⟩, rfl⟩

/-- C10: when the compiler exits with status 0 and its output is not valid
JSON, or decodes to an array holding a record on which `definition`,
`location` or `location.start` is missing, the `try` block throws an error
without a `stderr` string, reading `e.stderr.split` throws a `TypeError` out
of the handler, and the run prints nothing. -/
theorem non_subprocess_failure_escapes (o : ExecOutcome)
    (h : o = .returned none ∨
      ∃ tokens x, o = .returned (some (.array tokens)) ∧ x ∈ tokens ∧
        lacksTokenFields x) :
    (∃ e, tryBlock o = .error e ∧ e.stderr = none) ∧
    run o = ⟨[], some .typeError⟩ := by
  rcases h with rfl | ⟨tokens, x, rfl, hx, hlack⟩
  · exact ⟨⟨.syntaxError, rfl, rfl⟩, rfl⟩
  · have hf : tokenFilter tokens = .error .typeError :=
      filter_throws filterCallback filterCallback_cases tokens
        ⟨x, hx, filterCallback_lacking x hlack⟩
    have ht : tryBlock (.returned (some (.array tokens))) = .error .typeError := by
      simp [tryBlock, hf]
    refine ⟨⟨.typeError, ht, rfl⟩, ?_⟩
    simp [run, ht, catchHandler, Thrown.stderr]

/-- Witness of `non_subprocess_failure_escapes`: a well-formed token followed
by a record that has a `definition` and no `location`. -/
theorem non_subprocess_failure_escapes_witness :
    lacksTokenFields (.object [("definition", Position.toJS ⟨2, 3⟩)]) ∧
    run (.returned (some (.array [declarationToken.toJS,
      .object [("definition", Position.toJS ⟨2, 3⟩)]]))) =
      ⟨[], some .typeError⟩ :=
  ⟨Or.inr (Or.inl rfl),
    (non_subprocess_failure_escapes _
      (Or.inr ⟨_, .object [("definition", Position.toJS ⟨2, 3⟩)], rfl,
        by simp, Or.inr (Or.inl rfl)⟩)).2⟩

end AgalangCore
